import Mathlib

/-!
Verification of the riteraft/raftify single-node Raft driver.

The definitions below are a shallow embedding of the Python sources:
`riteraft/raft_node.py` (the node event loop, readiness handling, committed
entry application, peer registry, snapshot policy) and `raftify/mailbox.py`
(the client mailbox response handler).  Python dictionaries are embedded as
association lists with unique keys, bytes as lists of naturals, awaited
side effects (state-machine calls, storage writes, task spawns, channel
puts) as an explicit event trace, and raising code as `Except`.
-/

set_option autoImplicit false

namespace Raftify

/-- Dictionary lookup (`d.get(k)` / `d[k]` distinction is handled at use
sites: `getk` returning `none` corresponds to a missing key). -/
def getk {α : Type} : List (Nat × α) → Nat → Option α
  | [], _ => none
  | (k', v) :: rest, k => if k' = k then some v else getk rest k

/-- Dictionary store `d[k] = v`: replace the first binding of `k`, or append. -/
def setk {α : Type} : List (Nat × α) → Nat → α → List (Nat × α)
  | [], k, v => [(k, v)]
  | (k', v') :: rest, k, v =>
    if k' = k then (k, v) :: rest else (k', v') :: setk rest k v

/-- Dictionary deletion: drop every binding of `k`. -/
def erasek {α : Type} (l : List (Nat × α)) (k : Nat) : List (Nat × α) :=
  l.filter (fun p => p.1 != k)

/-- Dictionary `d.pop(k, None)`: remove and return the binding of `k` when present. -/
def popk {α : Type} (l : List (Nat × α)) (k : Nat) : Option α × List (Nat × α) :=
  match getk l k with
  | some v => (some v, erasek l k)
  | none => (none, l)

/-- Maximum key `max(d.keys())` (0 when empty; callers guard emptiness as the code does). -/
def maxKey {α : Type} (l : List (Nat × α)) : Nat :=
  (l.map Prod.fst).foldr max 0

/-- Exceptions the embedded Python code can raise. -/
inductive RunError where
  | keyError
  | attributeError
  | notImplementedError
  | decodeError
  | structError
  deriving DecidableEq, Repr

/-- Responses put on client reply channels (`riteraft/message.py` variants).
`noLeader` exists only in the specification (spec §4.E: "If no leader is
known, reply NoLeader"); the code never constructs it. -/
inductive Resp where
  | response (data : List Nat)
  | joinSuccess (assignedId : Nat) (peerAddrs : List (Nat × Nat))
  | respOk
  | wrongLeader (leaderId : Nat) (addr : Nat)
  | idReserved (id : Nat)
  | noLeader
  deriving DecidableEq, Repr

/-- Embeds `rraft.ConfChangeType` (AddNode / AddLearnerNode / RemoveNode). -/
inductive CCType where
  | addNode
  | addLearnerNode
  | removeNode
  deriving DecidableEq, Repr

/-- Embeds `rraft.ConfChange` as used by the driver: node id, change type, context. -/
structure ConfChange where
  nodeId : Nat
  changeType : CCType
  context : List Nat
  deriving DecidableEq, Repr

def ccTypeCode : CCType → Nat
  | .addNode => 0
  | .addLearnerNode => 1
  | .removeNode => 2

def ccTypeOfCode : Nat → Option CCType
  | 0 => some .addNode
  | 1 => some .addLearnerNode
  | 2 => some .removeNode
  | _ => none

/-- Serialization of a `ConfChange` into entry data (stands for the
protobuf encoding produced by `ConfChange.encode`; the leading `1` keeps
every serialized conf change non-empty, as the protobuf bytes of the
driver's conf changes are). -/
def encCC (c : ConfChange) : List Nat :=
  1 :: c.nodeId :: ccTypeCode c.changeType :: c.context

/-- Embeds `ConfChange.decode`, partial inverse of `encCC`. -/
def decCC : List Nat → Option ConfChange
  | 1 :: nid :: t :: ctx =>
    match ccTypeOfCode t with
    | some ty => some ⟨nid, ty, ctx⟩
    | none => none
  | _ => none

/-- Modelled from the spec: `riteraft.utils.encode_u64` is not under `src/`;
spec §4.A describes it as the fixed-width 8-byte big-endian codec. -/
def encode_u64 (n : Nat) : List Nat :=
  (List.range 8).map (fun i => n / 256 ^ (7 - i) % 256)

/-- Modelled from the spec: `riteraft.utils.decode_u64` is not under `src/`;
spec §4.A describes it as the fixed-width 8-byte big-endian codec
(`struct.unpack` raises on inputs that are not exactly 8 bytes). -/
def decode_u64 (b : List Nat) : Except RunError Nat :=
  if b.length = 8 then .ok (b.foldl (fun acc x => acc * 256 + x) 0)
  else .error .structError

/-- Embeds `rraft.EntryType`. -/
inductive EntryKind where
  | normal
  | confChange
  | confChangeV2
  deriving DecidableEq, Repr

/-- A committed Raft log entry as consumed by the driver. -/
structure LogEntry where
  kind : EntryKind
  data : List Nat
  context : List Nat
  deriving DecidableEq, Repr

/-- Observable effects of a handler, in program order: state-machine calls,
channel puts, storage writes, spawned sender tasks, Raft API calls. -/
inductive Ev where
  | smApply (data : List Nat)
  | reply (chan : Nat) (resp : Resp)
  | smSnapshot
  | compact (idx : Nat)
  | createSnapshot
  | setConfState
  | restore (data : List Nat)
  | applySnapshotStore
  | appendEntries (es : List LogEntry)
  | setHardState
  | setCommit (c : Nat)
  | spawnSend (dest : Nat) (client : Nat)
  | spawnPersisted (dest : Nat) (client : Nat)
  | proposeData (ctx : List Nat) (data : List Nat)
  | proposeConf (ctx : List Nat) (c : ConfChange)
  | stepMsg (frm : Nat)
  | reportUnreachable (id : Nat)
  | tick
  deriving DecidableEq, Repr

/-- External collaborators of one handler invocation: the user state
machine's `apply` result, the bytes `store.snapshot()` returns, the current
wall-clock time, and whether `raw_node.apply_conf_change` returned a
non-null conf state. -/
structure Ext where
  applyFn : List Nat → List Nat
  snapData : List Nat
  now : Nat
  csNew : Bool

/-- The in-memory fields of `RaftNode` the claims are about.  `selfId` and
`leaderId` embed `raw_node.get_raft().get_id()/get_leader_id()`; `applied`
embeds `get_raft_log().get_applied()`; `peers` maps node id to an optional
client address (`None` = reserved). -/
structure RaftNodeState where
  selfId : Nat
  leaderId : Nat
  peers : List (Nat × Option Nat)
  shouldQuit : Bool
  seqCtr : Nat
  lastSnapTime : Nat
  applied : Nat
  deriving DecidableEq, Repr

/-- The `client_senders` correlation table: sequence → reply channel id. -/
abbrev Senders := List (Nat × Nat)

/-- Embeds `RaftNode.peer_addrs`: renders every registry entry via `v.addr`; a
reserved entry (`None`) makes `None.addr` raise `AttributeError`. -/
def peer_addrs : List (Nat × Option Nat) → Except RunError (List (Nat × Nat))
  | [] => .ok []
  | (k, some a) :: rest =>
    match peer_addrs rest with
    | .ok pa => .ok ((k, a) :: pa)
    | .error e => .error e
  | (_, none) :: _ => .error .attributeError

/-- Embeds `RaftNode.reserve_next_peer_id`: `next_id = max(peers.keys()) if peers
else 1; next_id = max(next_id + 1, self.id()); peers[next_id] = None`. -/
def reserve_next_peer_id (st : RaftNodeState) : Nat × RaftNodeState :=
  let n1 := if st.peers.isEmpty then 1 else maxKey st.peers
  let nid := max (n1 + 1) st.selfId
  (nid, { st with peers := setk st.peers nid none })

/-- Embeds `RaftNode.send_messages`: for each message, spawn a sender task only
when `peers.get(msg.get_to())` yields a populated client (the walrus `if
client :=` skips both a missing key and a reserved `None` entry).  Returns
the `(destination, client)` pairs of the spawned tasks. -/
def send_messages (peers : List (Nat × Option Nat)) : List Nat → List (Nat × Nat)
  | [] => []
  | dest :: rest =>
    match getk peers dest with
    | some (some c) => (dest, c) :: send_messages peers rest
    | _ => send_messages peers rest

/-- Embeds `RaftNode.send_wrong_leader`: `self.peers[leader_id]` raises `KeyError`
when the leader id is absent (in particular when no leader is known and
`leader_id = 0`), and `.addr` on a reserved entry raises `AttributeError`;
otherwise the `WrongLeader` response is put on the channel. -/
def send_wrong_leader (st : RaftNodeState) : Except RunError Resp :=
  match getk st.peers st.leaderId with
  | none => .error .keyError
  | some none => .error .attributeError
  | some (some addr) => .ok (.wrongLeader st.leaderId addr)

/-- Embeds `RaftNode.handle_normal`: decode the sequence from the entry context,
apply the data to the state machine, answer the popped sender if any, and
when the snapshot timer has elapsed take a state-machine snapshot, compact
the log at `last_applied` and then create the storage snapshot (in that
source order). -/
def handle_normal (ext : Ext) (st : RaftNodeState) (entry : LogEntry)
    (senders : Senders) : Except RunError (RaftNodeState × Senders × List Ev) :=
  match decode_u64 entry.context with
  | .error e => .error e
  | .ok seq =>
    let data := ext.applyFn entry.data
    let evs0 := [Ev.smApply entry.data]
    match popk senders seq with
    | (popped, senders') =>
      let evs1 := match popped with
        | some ch => [Ev.reply ch (.response data)]
        | none => []
      if ext.now > st.lastSnapTime + 15 then
        .ok ({ st with lastSnapTime := ext.now }, senders',
          evs0 ++ evs1 ++ [Ev.smSnapshot, Ev.compact st.applied, Ev.createSnapshot])
      else
        .ok (st, senders', evs0 ++ evs1)

/-- Embeds `RaftNode.handle_config_change`: decode the conf change, mutate the
peer registry (AddNode populates the id; RemoveNode of self sets
`should_quit`, RemoveNode of another pops it — `dict.pop` with no default
raises `KeyError` when absent; other types raise `NotImplementedError`);
when `apply_conf_change` returns a conf state, take a state-machine
snapshot then write conf state, compact, create snapshot (source order);
finally answer the popped sender, where the `JoinSuccess` response
evaluates `peer_addrs` (which can raise) before the put. -/
def handle_config_change (ext : Ext) (st : RaftNodeState) (entry : LogEntry)
    (senders : Senders) : Except RunError (RaftNodeState × Senders × List Ev) :=
  match decode_u64 entry.context with
  | .error e => .error e
  | .ok seq =>
    match decCC entry.data with
    | none => .error .decodeError
    | some change =>
      let step1 : Except RunError RaftNodeState :=
        match change.changeType with
        | .addNode =>
          match decode_u64 change.context with
          | .error e => .error e
          | .ok addr => .ok { st with peers := setk st.peers change.nodeId (some addr) }
        | .removeNode =>
          if change.nodeId = st.selfId then .ok { st with shouldQuit := true }
          else
            match getk st.peers change.nodeId with
            | some _ => .ok { st with peers := erasek st.peers change.nodeId }
            | none => .error .keyError
        | .addLearnerNode => .error .notImplementedError
      match step1 with
      | .error e => .error e
      | .ok st1 =>
        let evs1 := if ext.csNew then
            [Ev.smSnapshot, Ev.setConfState, Ev.compact st1.applied, Ev.createSnapshot]
          else []
        match popk senders seq with
        | (none, senders1) => .ok (st1, senders1, evs1)
        | (some ch, senders1) =>
          let respE : Except RunError Resp :=
            match change.changeType with
            | .addNode =>
              match peer_addrs st1.peers with
              | .ok pa => .ok (.joinSuccess change.nodeId pa)
              | .error e => .error e
            | .removeNode => .ok .respOk
            | .addLearnerNode => .error .notImplementedError
          match respE with
          | .error e => .error e
          | .ok resp => .ok (st1, senders1, evs1 ++ [Ev.reply ch resp])

/-- Embeds `RaftNode.handle_committed_entries`: skip entries with empty data
(`if not entry.get_data(): continue`), dispatch the rest on the entry
type; `EntryConfChangeV2` raises `NotImplementedError`. -/
def handle_committed_entries (ext : Ext) :
    RaftNodeState → List LogEntry → Senders →
      Except RunError (RaftNodeState × Senders × List Ev)
  | st, [], senders => .ok (st, senders, [])
  | st, e :: rest, senders =>
    if e.data = [] then handle_committed_entries ext st rest senders
    else
      match (match e.kind with
        | .normal => handle_normal ext st e senders
        | .confChange => handle_config_change ext st e senders
        | .confChangeV2 => .error .notImplementedError) with
      | .error err => .error err
      | .ok (st1, senders1, evs) =>
        match handle_committed_entries ext st1 rest senders1 with
        | .error err => .error err
        | .ok (st2, senders2, evs') => .ok (st2, senders2, evs ++ evs')

/-- The light ready batch returned by `raw_node.advance`. -/
structure LightReady where
  commitIndex : Option Nat
  messages : List Nat
  committedEntries : List LogEntry
  deriving DecidableEq, Repr

/-- The ready batch returned by `raw_node.ready()`: message destinations,
the snapshot (`none` embeds equality with the default snapshot), committed
entries, entries to append, whether the hard state changed, persisted
message destinations, and the light ready from `advance`. -/
structure Ready where
  messages : List Nat
  snapshot : Option (List Nat)
  committedEntries : List LogEntry
  entries : List LogEntry
  hs : Bool
  persistedMessages : List Nat
  light : LightReady
  deriving DecidableEq, Repr

/-- Embeds `RaftNode.on_ready`, step by step in source order: return unless
`has_ready`; dispatch `ready.messages()`; on a non-default snapshot,
`store.restore(data)` then `storage.apply_snapshot`; handle the committed
entries; `storage.append(ready.entries())`; persist a changed hard state;
dispatch the persisted messages (when any); after `advance`, persist a
truthy commit index, dispatch the light messages, and handle the light
committed entries. -/
def on_ready (ext : Ext) (st : RaftNodeState) (rdy? : Option Ready)
    (senders : Senders) : Except RunError (RaftNodeState × Senders × List Ev) :=
  match rdy? with
  | none => .ok (st, senders, [])
  | some rdy =>
    let evsMsgs := (send_messages st.peers rdy.messages).map
      (fun p => Ev.spawnSend p.1 p.2)
    let evsSnap := match rdy.snapshot with
      | some d => [Ev.restore d, Ev.applySnapshotStore]
      | none => []
    match handle_committed_entries ext st rdy.committedEntries senders with
    | .error e => .error e
    | .ok (st1, senders1, evsCommit) =>
      let evsAppend := [Ev.appendEntries rdy.entries]
      let evsHs := if rdy.hs then [Ev.setHardState] else []
      let evsPersisted := if rdy.persistedMessages.isEmpty then []
        else (send_messages st1.peers rdy.persistedMessages).map
          (fun p => Ev.spawnPersisted p.1 p.2)
      let evsCommitIdx := match rdy.light.commitIndex with
        | some c => if c = 0 then [] else [Ev.setCommit c]
        | none => []
      let evsLightMsgs := (send_messages st1.peers rdy.light.messages).map
        (fun p => Ev.spawnSend p.1 p.2)
      match handle_committed_entries ext st1 rdy.light.committedEntries senders1 with
      | .error e => .error e
      | .ok (st2, senders2, evsLightCommit) =>
        .ok (st2, senders2,
          evsMsgs ++ evsSnap ++ evsCommit ++ evsAppend ++ evsHs ++
            evsPersisted ++ evsCommitIdx ++ evsLightMsgs ++ evsLightCommit)

/-- Inbound request messages of the event loop (`riteraft/message.py`). -/
inductive InMsg where
  | configChange (change : ConfChange) (chan : Nat)
  | propose (proposal : List Nat) (chan : Nat)
  | requestId (chan : Nat)
  | raftMsg (frm : Nat)
  | reportUnreachable (nodeId : Nat)
  deriving DecidableEq, Repr

/-- The request-dispatch section of `RaftNode.run` (one loop iteration's
`isinstance` chain).  `none` embeds the heartbeat timeout with no message. -/
def dispatch (st : RaftNodeState) (senders : Senders) :
    Option InMsg → Except RunError (RaftNodeState × Senders × List Ev)
  | none => .ok (st, senders, [])
  | some (.configChange change0 ch) =>
    let change := if change0.nodeId = 0 then { change0 with nodeId := st.selfId }
      else change0
    if st.selfId == st.leaderId then
      let seq := st.seqCtr + 1
      .ok ({ st with seqCtr := seq }, setk senders seq ch,
        [Ev.proposeConf (encode_u64 seq) change])
    else
      match send_wrong_leader st with
      | .error e => .error e
      | .ok resp => .ok (st, senders, [Ev.reply ch resp])
  | some (.propose data ch) =>
    if st.selfId == st.leaderId then
      let seq := st.seqCtr + 1
      .ok ({ st with seqCtr := seq }, setk senders seq ch,
        [Ev.proposeData (encode_u64 seq) data])
    else
      match send_wrong_leader st with
      | .error e => .error e
      | .ok resp => .ok (st, senders, [Ev.reply ch resp])
  | some (.requestId ch) =>
    if st.selfId == st.leaderId then
      match reserve_next_peer_id st with
      | (nid, st') => .ok (st', senders, [Ev.reply ch (.idReserved nid)])
    else
      match send_wrong_leader st with
      | .error e => .error e
      | .ok resp => .ok (st, senders, [Ev.reply ch resp])
  | some (.raftMsg frm) => .ok (st, senders, [Ev.stepMsg frm])
  | some (.reportUnreachable nid) => .ok (st, senders, [Ev.reportUnreachable nid])

/-- Outcome of one `RaftNode.run` loop iteration. -/
inductive IterOut where
  | quit
  | cont (st : RaftNodeState) (senders : Senders) (evs : List Ev)
  deriving DecidableEq, Repr

/-- One iteration of `RaftNode.run`: if `should_quit`, return immediately
(nothing dequeued, nothing proposed); otherwise dequeue at most one inbound
message, dispatch it, tick, and run `on_ready`.  Returns the iteration
outcome together with the remaining inbound queue. -/
def runIter (ext : Ext) (st : RaftNodeState) (senders : Senders)
    (queue : List InMsg) (rdy? : Option Ready) :
    Except RunError (IterOut × List InMsg) :=
  if st.shouldQuit then .ok (.quit, queue)
  else
    let dq : Option InMsg × List InMsg := match queue with
      | [] => (none, [])
      | m :: rest => (some m, rest)
    match dispatch st senders dq.1 with
    | .error e => .error e
    | .ok (st1, senders1, evs1) =>
      match on_ready ext st1 rdy? senders1 with
      | .error e => .error e
      | .ok (st2, senders2, evs2) =>
        .ok (.cont st2 senders2 (evs1 ++ [Ev.tick] ++ evs2), dq.2)

/-- Response variants `Mailbox.__handle_response` inspects
(`raftify/response_message.py`). -/
inductive MailboxResp where
  | clusterBootstrapReady
  | raftResp (data : List Nat)
  | wrongLeaderResp
  deriving DecidableEq, Repr

/-- What `leader.client.reroute_message` returns: the gRPC
`SendMessageResponse`, or anything else. -/
inductive RerouteResp where
  | sendMessageResponse (data : List Nat)
  | otherResp
  deriving DecidableEq, Repr

/-- Failures of the mailbox call.  `leadershipUnstable` exists only in the
specification (spec §4.D / §9: a second `WrongLeader` must fail with
`LeadershipUnstable`); the code never raises it. -/
inductive MailboxErr where
  | assertionFailed
  | unknownError
  | leadershipUnstable
  deriving DecidableEq, Repr

/-- Embeds `Mailbox.__handle_response`: returns the data of a `RaftRespMessage`;
on `WrongLeaderRespMessage` it asserts the leader is a populated peer,
re-issues the request via `reroute_message` exactly once, returns the data
of a `SendMessageResponse`, and `assert False` on any other reroute
result.  The second component counts the reroute calls made. -/
def handle_response (resp : MailboxResp) (leaderPopulated : Bool)
    (rerouteResp : RerouteResp) : Except MailboxErr (Option (List Nat)) × Nat :=
  match resp with
  | .clusterBootstrapReady => (.ok none, 0)
  | .raftResp d => (.ok (some d), 0)
  | .wrongLeaderResp =>
    if leaderPopulated then
      match rerouteResp with
      | .sendMessageResponse d => (.ok (some d), 1)
      | .otherResp => (.error .assertionFailed, 1)
    else (.error .assertionFailed, 0)

/-- Follows the spec's words (spec §4.E, leader path for `RequestId`):
"compute `reserve_next_peer_id()` — `max(existing_peer_ids ∪ {own_id}) + 1`".
Stated for comparison with the source's `reserve_next_peer_id`. -/
def specReserveNextId (peers : List (Nat × Option Nat)) (own : Nat) : Nat :=
  (peers.map Prod.fst).foldr max own + 1

/-- Event classifiers used by the ordering statements. -/
def isAppendEv : Ev → Bool
  | .appendEntries _ => true
  | _ => false

def isPersistedSendEv : Ev → Bool
  | .spawnPersisted _ _ => true
  | _ => false

def isRestoreEv : Ev → Bool
  | .restore _ => true
  | _ => false

def isApplySnapEv : Ev → Bool
  | .applySnapshotStore => true
  | _ => false

def isCompactEv : Ev → Bool
  | .compact _ => true
  | _ => false

def isCreateSnapEv : Ev → Bool
  | .createSnapshot => true
  | _ => false

def isSetConfEv : Ev → Bool
  | .setConfState => true
  | _ => false

def isReplyEv : Ev → Bool
  | .reply _ _ => true
  | _ => false

def replyChanOf : Ev → Nat
  | .reply c _ => c
  | _ => 0

/-- Events a committed-entry handler can emit (used to separate the
committed-entry sub-traces from the storage/dispatch events of a readiness
cycle). -/
def isCommitHandlerEv : Ev → Bool
  | .smApply _ => true
  | .reply _ _ => true
  | .smSnapshot => true
  | .compact _ => true
  | .createSnapshot => true
  | .setConfState => true
  | _ => false

/-- Predicate `allBefore p q tr` holds when every `p`-event of the trace occurs
strictly before every `q`-event: whenever a `q`-event is reached, no
`p`-event is at it or after it. -/
def allBefore (p q : Ev → Bool) : List Ev → Bool
  | [] => true
  | e :: tr => (!q e || (e :: tr).all (fun x => !p x)) && allBefore p q tr

/-- Whether an embedded call returned normally (no exception). -/
def exceptIsOk {α : Type} : Except RunError α → Bool
  | .ok _ => true
  | .error _ => false

/-! ### Association-list lemmas -/

theorem getk_erasek_self {α : Type} (l : List (Nat × α)) (k : Nat) :
    getk (erasek l k) k = none := by
  induction l with
  | nil => rfl
  | cons p rest ih =>
    rcases p with ⟨k', v⟩
    by_cases hk : k' = k
    · subst hk
      simpa [erasek, getk] using ih
    · simpa [erasek, getk, hk] using ih

theorem getk_setk_self {α : Type} (l : List (Nat × α)) (k : Nat) (v : α) :
    getk (setk l k v) k = some v := by
  induction l with
  | nil => simp [setk, getk]
  | cons p rest ih =>
    rcases p with ⟨k', v'⟩
    by_cases hk : k' = k
    · subst hk
      simp [setk, getk]
    · simpa [setk, getk, hk] using ih

theorem getk_setk_ne {α : Type} (l : List (Nat × α)) (k k' : Nat) (v : α)
    (h : k' ≠ k) : getk (setk l k v) k' = getk l k' := by
  induction l with
  | nil => simp [setk, getk, Ne.symm h]
  | cons p rest ih =>
    rcases p with ⟨k0, v0⟩
    by_cases hk : k0 = k
    · subst hk
      simp [setk, getk, Ne.symm h]
    · by_cases hk' : k0 = k'
      · subst hk'
        simp [setk, getk, hk]
      · simpa [setk, getk, hk, hk'] using ih

theorem getk_of_maxKey_lt {α : Type} (l : List (Nat × α)) (k : Nat)
    (h : maxKey l < k) : getk l k = none := by
  induction l with
  | nil => rfl
  | cons p rest ih =>
    rcases p with ⟨k', v⟩
    have hmax : max k' (maxKey rest) < k := by
      simpa [maxKey] using h
    have hk' : k' ≠ k := by omega
    have hrest : maxKey rest < k := by omega
    simpa [getk, hk'] using ih hrest

theorem peer_addrs_error_of_reserved (peers : List (Nat × Option Nat))
    (rid : Nat) (h : getk peers rid = some none) :
    peer_addrs peers = .error .attributeError := by
  induction peers with
  | nil => simp [getk] at h
  | cons p rest ih =>
    rcases p with ⟨k, v⟩
    rcases v with _ | a
    · rfl
    · by_cases hk : k = rid
      · subst hk
        simp [getk] at h
      · have h' : getk rest rid = some none := by
          simpa [getk, hk] using h
        simp [peer_addrs, ih h']

/-! ### Codec lemmas -/

theorem encode_u64_length (n : Nat) : (encode_u64 n).length = 8 := by
  simp [encode_u64]

theorem decCC_encCC (c : ConfChange) : decCC (encCC c) = some c := by
  rcases c with ⟨nid, ty, ctx⟩
  cases ty <;> rfl

/-! ### Trace-ordering lemmas -/

theorem allBefore_of_all_not_q {p q : Ev → Bool} {l : List Ev}
    (h : ∀ x ∈ l, q x = false) : allBefore p q l = true := by
  induction l with
  | nil => rfl
  | cons e tr ih =>
    have he : q e = false := h e (List.mem_cons_self e tr)
    simp only [allBefore, he, Bool.not_false, Bool.true_or, Bool.true_and]
    exact ih (fun x hx => h x (List.mem_cons_of_mem e hx))

theorem allBefore_of_all_not_p {p q : Ev → Bool} {l : List Ev}
    (h : ∀ x ∈ l, p x = false) : allBefore p q l = true := by
  induction l with
  | nil => rfl
  | cons e tr ih =>
    have hall : (e :: tr).all (fun x => !p x) = true := by
      simp only [List.all_eq_true]
      intro x hx
      simp [h x hx]
    simp only [allBefore, hall, Bool.or_true, Bool.true_and]
    exact ih (fun x hx => h x (List.mem_cons_of_mem e hx))

theorem allBefore_append {p q : Ev → Bool} {l₁ l₂ : List Ev}
    (h1 : allBefore p q l₁ = true) (h2 : allBefore p q l₂ = true)
    (h3 : (∀ x ∈ l₁, q x = false) ∨ (∀ x ∈ l₂, p x = false)) :
    allBefore p q (l₁ ++ l₂) = true := by
  induction l₁ with
  | nil => simpa using h2
  | cons e tr ih =>
    simp only [allBefore, Bool.and_eq_true] at h1
    rcases h1 with ⟨hhead, htail⟩
    rcases h3 with h3 | h3
    · have he : q e = false := h3 e (List.mem_cons_self e tr)
      have ihh := ih htail (Or.inl (fun x hx => h3 x (List.mem_cons_of_mem e hx)))
      simp only [List.cons_append, allBefore, he, Bool.not_false, Bool.true_or,
        Bool.true_and]
      exact ihh
    · have ihh := ih htail (Or.inr h3)
      simp only [List.cons_append, allBefore, Bool.and_eq_true]
      refine ⟨?_, ihh⟩
      cases hq : q e with
      | false => simp [hq]
      | true =>
        rw [hq] at hhead
        simp only [Bool.not_true, Bool.false_or] at hhead
        have hall : ((e :: (tr ++ l₂)).all fun x => !p x) = true := by
          simp only [List.all_eq_true] at hhead ⊢
          intro x hx
          rcases List.mem_cons.1 hx with rfl | hx
          · exact hhead x (List.mem_cons_self x tr)
          · rcases List.mem_append.1 hx with hx2 | hx2
            · exact hhead x (List.mem_cons_of_mem e hx2)
            · simp [h3 x hx2]
        simp [hall]

/-! ### Handler event-shape lemmas -/

theorem hn_evs_shape (ext : Ext) (st : RaftNodeState) (e : LogEntry)
    (sd : Senders) (st' : RaftNodeState) (sd' : Senders) (evs : List Ev)
    (h : handle_normal ext st e sd = .ok (st', sd', evs)) :
    ∀ x ∈ evs, isCommitHandlerEv x = true := by
  rw [handle_normal.eq_def] at h
  rcases hd : decode_u64 e.context with eE | seq <;> simp only [hd] at h
  · exact absurd h (by simp)
  rcases hp : popk sd seq with ⟨popped, senders'⟩
  by_cases ht : ext.now > st.lastSnapTime + 15 <;>
    rcases popped with _ | ch <;>
    simp [hp, ht] at h <;>
    obtain ⟨h1, h2, h3⟩ := h <;>
    subst h3 <;>
    simp [isCommitHandlerEv]

theorem hcc_evs_shape (ext : Ext) (st : RaftNodeState) (e : LogEntry)
    (sd : Senders) (st' : RaftNodeState) (sd' : Senders) (evs : List Ev)
    (h : handle_config_change ext st e sd = .ok (st', sd', evs)) :
    ∀ x ∈ evs, isCommitHandlerEv x = true := by
  rw [handle_config_change.eq_def] at h
  rcases hd : decode_u64 e.context with eE | seq <;> simp only [hd] at h
  · exact absurd h (by simp)
  rcases hdc : decCC e.data with _ | change <;> simp only [hdc] at h
  · exact absurd h (by simp)
  rcases change with ⟨nid, cty, cctx⟩
  rcases hp : popk sd seq with ⟨popped, senders1⟩
  cases cty with
  | addNode =>
    rcases ha : decode_u64 cctx with eE | addr
    · simp [ha] at h
    · rcases popped with _ | ch
      · by_cases hcs : ext.csNew <;>
          simp [ha, hp, hcs] at h <;>
          obtain ⟨h1, h2, h3⟩ := h <;>
          subst h3 <;>
          simp [isCommitHandlerEv]
      · rcases hpa : peer_addrs (setk st.peers nid (some addr)) with eE | pa
        · simp [ha, hp, hpa] at h
        · by_cases hcs : ext.csNew <;>
            simp [ha, hp, hpa, hcs] at h <;>
            obtain ⟨h1, h2, h3⟩ := h <;>
            subst h3 <;>
            simp [isCommitHandlerEv]
  | removeNode =>
    by_cases hself : nid = st.selfId
    · rcases popped with _ | ch <;>
        by_cases hcs : ext.csNew <;>
        simp [hself, hp, hcs] at h <;>
        obtain ⟨h1, h2, h3⟩ := h <;>
        subst h3 <;>
        simp [isCommitHandlerEv]
    · rcases hg : getk st.peers nid with _ | cl
      · simp [hself, hg] at h
      · rcases popped with _ | ch <;>
          by_cases hcs : ext.csNew <;>
          simp [hself, hg, hp, hcs] at h <;>
          obtain ⟨h1, h2, h3⟩ := h <;>
          subst h3 <;>
          simp [isCommitHandlerEv]
  | addLearnerNode => simp at h

theorem hce_evs_shape (ext : Ext) :
    ∀ (es : List LogEntry) (st : RaftNodeState) (sd : Senders)
      (st' : RaftNodeState) (sd' : Senders) (evs : List Ev),
      handle_committed_entries ext st es sd = .ok (st', sd', evs) →
      ∀ x ∈ evs, isCommitHandlerEv x = true := by
  intro es
  induction es with
  | nil =>
    intro st sd st' sd' evs h
    rw [handle_committed_entries] at h
    simp only [Except.ok.injEq, Prod.mk.injEq] at h
    obtain ⟨h1, h2, h3⟩ := h
    subst h3
    simp
  | cons e rest ih =>
    intro st sd st' sd' evs h
    rw [handle_committed_entries] at h
    by_cases hdata : e.data = []
    · rw [if_pos hdata] at h
      exact ih st sd st' sd' evs h
    rw [if_neg hdata] at h
    cases hk : e.kind with
    | normal =>
      rcases hh : handle_normal ext st e sd with eE | res <;>
        simp only [hk, hh] at h
      · exact absurd h (by simp)
      rcases res with ⟨st1, sd1, evs1⟩
      rcases hr : handle_committed_entries ext st1 rest sd1 with eE | res2 <;>
        simp only [hr] at h
      · exact absurd h (by simp)
      rcases res2 with ⟨st2, sd2, evs2⟩
      simp only [Except.ok.injEq, Prod.mk.injEq] at h
      obtain ⟨h1, h2, h3⟩ := h
      subst h3
      intro x hx
      rcases List.mem_append.1 hx with hx | hx
      · exact hn_evs_shape ext st e sd st1 sd1 evs1 hh x hx
      · exact ih st1 sd1 st2 sd2 evs2 hr x hx
    | confChange =>
      rcases hh : handle_config_change ext st e sd with eE | res <;>
        simp only [hk, hh] at h
      · exact absurd h (by simp)
      rcases res with ⟨st1, sd1, evs1⟩
      rcases hr : handle_committed_entries ext st1 rest sd1 with eE | res2 <;>
        simp only [hr] at h
      · exact absurd h (by simp)
      rcases res2 with ⟨st2, sd2, evs2⟩
      simp only [Except.ok.injEq, Prod.mk.injEq] at h
      obtain ⟨h1, h2, h3⟩ := h
      subst h3
      intro x hx
      rcases List.mem_append.1 hx with hx | hx
      · exact hcc_evs_shape ext st e sd st1 sd1 evs1 hh x hx
      · exact ih st1 sd1 st2 sd2 evs2 hr x hx
    | confChangeV2 =>
      simp only [hk] at h
      exact absurd h (by simp)

theorem commit_ev_classes (x : Ev) (h : isCommitHandlerEv x = true) :
    isAppendEv x = false ∧ isPersistedSendEv x = false ∧
    isRestoreEv x = false ∧ isApplySnapEv x = false := by
  cases x <;> simp_all [isCommitHandlerEv, isAppendEv, isPersistedSendEv,
    isRestoreEv, isApplySnapEv]

theorem mem_spawnSend_map {l : List (Nat × Nat)} {x : Ev}
    (hx : x ∈ l.map (fun p => Ev.spawnSend p.1 p.2)) :
    ∃ a b, x = Ev.spawnSend a b := by
  rcases List.mem_map.1 hx with ⟨p, hp, rfl⟩
  exact ⟨p.1, p.2, rfl⟩

theorem mem_spawnPersisted_map {l : List (Nat × Nat)} {x : Ev}
    (hx : x ∈ l.map (fun p => Ev.spawnPersisted p.1 p.2)) :
    ∃ a b, x = Ev.spawnPersisted a b := by
  rcases List.mem_map.1 hx with ⟨p, hp, rfl⟩
  exact ⟨p.1, p.2, rfl⟩

theorem allBefore_of_decomp {p q : Ev → Bool} {L R : List Ev}
    (hL : ∀ x ∈ L, q x = false) (hR : ∀ x ∈ R, p x = false) :
    allBefore p q (L ++ R) = true :=
  allBefore_append (allBefore_of_all_not_q hL) (allBefore_of_all_not_p hR)
    (Or.inl hL)

theorem allBefore_nine (p q : Ev → Bool)
    (l1 l2 l3 l4 l5 l6 l7 l8 l9 : List Ev)
    (hq : ∀ x ∈ l1 ++ l2 ++ l3 ++ l4 ++ l5, q x = false)
    (hp : ∀ x ∈ l6 ++ l7 ++ l8 ++ l9, p x = false) :
    allBefore p q (l1 ++ l2 ++ l3 ++ l4 ++ l5 ++ l6 ++ l7 ++ l8 ++ l9) = true := by
  have hr : l1 ++ l2 ++ l3 ++ l4 ++ l5 ++ l6 ++ l7 ++ l8 ++ l9 =
      (l1 ++ l2 ++ l3 ++ l4 ++ l5) ++ (l6 ++ l7 ++ l8 ++ l9) := by
    simp [List.append_assoc]
  rw [hr]
  exact allBefore_of_decomp hq hp

theorem allBefore_head2 (p q : Ev → Bool) (l1 l2 T : List Ev)
    (h1q : ∀ x ∈ l1, q x = false)
    (h2 : allBefore p q l2 = true)
    (hT : ∀ x ∈ T, p x = false) :
    allBefore p q (l1 ++ l2 ++ T) = true := by
  refine allBefore_append ?_ (allBefore_of_all_not_p hT) (Or.inr hT)
  exact allBefore_append (allBefore_of_all_not_q h1q) h2 (Or.inl h1q)

theorem hn_compact_order (ext : Ext) (st : RaftNodeState) (e : LogEntry)
    (sd : Senders) (st' : RaftNodeState) (sd' : Senders) (evs : List Ev)
    (h : handle_normal ext st e sd = .ok (st', sd', evs)) :
    allBefore isCompactEv isCreateSnapEv evs = true := by
  rw [handle_normal.eq_def] at h
  rcases hd : decode_u64 e.context with eE | seq <;> simp only [hd] at h
  · exact absurd h (by simp)
  rcases hp : popk sd seq with ⟨popped, senders'⟩
  by_cases ht : ext.now > st.lastSnapTime + 15 <;>
    rcases popped with _ | ch <;>
    simp [hp, ht] at h <;>
    obtain ⟨h1, h2, h3⟩ := h <;>
    subst h3 <;>
    simp [allBefore, isCompactEv, isCreateSnapEv]

theorem hcc_conf_order (ext : Ext) (st : RaftNodeState) (e : LogEntry)
    (sd : Senders) (st' : RaftNodeState) (sd' : Senders) (evs : List Ev)
    (h : handle_config_change ext st e sd = .ok (st', sd', evs)) :
    allBefore isCompactEv isCreateSnapEv evs = true ∧
    allBefore isSetConfEv isCompactEv evs = true := by
  rw [handle_config_change.eq_def] at h
  rcases hd : decode_u64 e.context with eE | seq <;> simp only [hd] at h
  · exact absurd h (by simp)
  rcases hdc : decCC e.data with _ | change <;> simp only [hdc] at h
  · exact absurd h (by simp)
  rcases change with ⟨nid, cty, cctx⟩
  rcases hp : popk sd seq with ⟨popped, senders1⟩
  cases cty with
  | addNode =>
    rcases ha : decode_u64 cctx with eE | addr
    · simp [ha] at h
    · rcases popped with _ | ch
      · by_cases hcs : ext.csNew <;>
          simp [ha, hp, hcs] at h <;>
          obtain ⟨h1, h2, h3⟩ := h <;>
          subst h3 <;>
          simp [allBefore, isCompactEv, isCreateSnapEv, isSetConfEv]
      · rcases hpa : peer_addrs (setk st.peers nid (some addr)) with eE | pa
        · simp [ha, hp, hpa] at h
        · by_cases hcs : ext.csNew <;>
            simp [ha, hp, hpa, hcs] at h <;>
            obtain ⟨h1, h2, h3⟩ := h <;>
            subst h3 <;>
            simp [allBefore, isCompactEv, isCreateSnapEv, isSetConfEv]
  | removeNode =>
    by_cases hself : nid = st.selfId
    · rcases popped with _ | ch <;>
        by_cases hcs : ext.csNew <;>
        simp [hself, hp, hcs] at h <;>
        obtain ⟨h1, h2, h3⟩ := h <;>
        subst h3 <;>
        simp [allBefore, isCompactEv, isCreateSnapEv, isSetConfEv]
    · rcases hg : getk st.peers nid with _ | cl
      · simp [hself, hg] at h
      · rcases popped with _ | ch <;>
          by_cases hcs : ext.csNew <;>
          simp [hself, hg, hp, hcs] at h <;>
          obtain ⟨h1, h2, h3⟩ := h <;>
          subst h3 <;>
          simp [allBefore, isCompactEv, isCreateSnapEv, isSetConfEv]
  | addLearnerNode => simp at h

/-! ### Claim theorems -/

/-- Claim C1, counterexample: the claim states that the snapshot-timer path
of `handle_normal` calls `storage.create_snapshot` before
`storage.compact(last_applied)`.  On a concrete committed normal entry with
the timer elapsed the handler's trace is `smApply, reply, smSnapshot,
compact 42, createSnapshot`: it contains both calls, and the compact is NOT
preceded by the snapshot creation, refuting the claimed order. -/
theorem c1_counterexample :
    handle_normal ⟨fun b => b, [9], 100, false⟩ ⟨1, 1, [], false, 0, 0, 42⟩
        ⟨.normal, [1], [0, 0, 0, 0, 0, 0, 0, 5]⟩ [(5, 7)] =
      .ok (⟨1, 1, [], false, 0, 100, 42⟩, [],
        [Ev.smApply [1], Ev.reply 7 (Resp.response [1]), Ev.smSnapshot,
          Ev.compact 42, Ev.createSnapshot]) ∧
    allBefore isCreateSnapEv isCompactEv
      [Ev.smApply [1], Ev.reply 7 (Resp.response [1]), Ev.smSnapshot,
        Ev.compact 42, Ev.createSnapshot] = false ∧
    [Ev.smApply [1], Ev.reply 7 (Resp.response [1]), Ev.smSnapshot,
      Ev.compact 42, Ev.createSnapshot].any isCompactEv = true ∧
    [Ev.smApply [1], Ev.reply 7 (Resp.response [1]), Ev.smSnapshot,
      Ev.compact 42, Ev.createSnapshot].any isCreateSnapEv = true :=
  ⟨rfl, rfl, rfl, rfl⟩

/-- Claim C2 (code bug evaluation): a committed `EntryNormal` whose payload
is the empty byte string and whose context correlates waiting channel 7
under sequence 5 is skipped wholesale by `handle_committed_entries` (the
`if not entry.get_data(): continue` guard): `state_machine.apply` is never
invoked, no reply is delivered, and the correlation table still holds the
sequence — contradicting the claim that empty proposals are applied and
answered like non-empty ones. -/
theorem c2_empty_proposal_dropped :
    handle_committed_entries ⟨fun b => b, [], 0, false⟩ ⟨1, 1, [], false, 0, 0, 0⟩
        [⟨.normal, [], [0, 0, 0, 0, 0, 0, 0, 5]⟩] [(5, 7)] =
      .ok (⟨1, 1, [], false, 0, 0, 0⟩, [(5, 7)], []) :=
  rfl

/-- Claim C4, counterexample: the claim states that a `Propose` arriving at
a non-leader with no known leader is answered with `NoLeader` rather than
failing.  At a concrete non-leader state with no known leader (leader id 0,
empty registry) the dispatch raises `KeyError` (from `self.peers[leader_id]`
in `send_wrong_leader`) instead of replying. -/
theorem c4_counterexample :
    dispatch ⟨2, 0, [], false, 0, 0, 0⟩ [] (some (.propose [1] 9)) =
      .error .keyError ∧
    exceptIsOk (dispatch ⟨2, 0, [], false, 0, 0, 0⟩ [] (some (.propose [1] 9))) =
      false :=
  ⟨rfl, rfl⟩

/-- Claim C5 (code bug evaluation): `Mailbox.__handle_response` re-issues a
`WrongLeader`-answered call to the indicated leader exactly once (the
reroute count is at most 1 on every path), but when that single reroute
yields anything other than a `SendMessageResponse` the call dies on
`assert False` (an `AssertionError`), not with the `LeadershipUnstable`
failure the claim requires. -/
theorem c5_reroute_assertion :
    handle_response .wrongLeaderResp true .otherResp =
      (.error .assertionFailed, 1) ∧
    (MailboxErr.assertionFailed == MailboxErr.leadershipUnstable) = false ∧
    ∀ (r : MailboxResp) (l : Bool) (rr : RerouteResp),
      (handle_response r l rr).2 ≤ 1 := by
  refine ⟨rfl, rfl, ?_⟩
  intro r l rr
  cases r <;> cases l <;> cases rr <;> simp [handle_response]

/-- Claim C6, counterexample: the claim states `reserve_next_peer_id`
returns `max(existing_peer_ids ∪ {own_id}) + 1`.  For an empty registry and
own id 3 the code returns 3 (its own id), while the claimed formula gives
4. -/
theorem c6_counterexample :
    (reserve_next_peer_id ⟨3, 3, [], false, 0, 0, 0⟩).1 = 3 ∧
    specReserveNextId [] 3 = 4 ∧
    ((reserve_next_peer_id ⟨3, 3, [], false, 0, 0, 0⟩).1 ==
      specReserveNextId [] 3) = false :=
  ⟨rfl, rfl, rfl⟩

/-- Claim C1, amended: in the snapshot-timer path of `handle_normal` and in
the conf-change commit path of `handle_config_change`, every
`storage.compact(last_applied)` call precedes every
`storage.create_snapshot` call (the reverse of the claimed order), and in
the conf-change path every `set_conf_state` call precedes every compaction;
no snapshot covering `last_applied` is durable yet when `compact` runs. -/
theorem c1_amended (ext : Ext) (st : RaftNodeState) (e : LogEntry)
    (sd : Senders) (st' : RaftNodeState) (sd' : Senders) (evs : List Ev)
    (ext2 : Ext) (st2 : RaftNodeState) (e2 : LogEntry) (sd2 : Senders)
    (st2' : RaftNodeState) (sd2' : Senders) (evs2 : List Ev)
    (hn : handle_normal ext st e sd = .ok (st', sd', evs))
    (hc : handle_config_change ext2 st2 e2 sd2 = .ok (st2', sd2', evs2)) :
    allBefore isCompactEv isCreateSnapEv evs = true ∧
    allBefore isCompactEv isCreateSnapEv evs2 = true ∧
    allBefore isSetConfEv isCompactEv evs2 = true :=
  ⟨hn_compact_order ext st e sd st' sd' evs hn,
    (hcc_conf_order ext2 st2 e2 sd2 st2' sd2' evs2 hc).1,
    (hcc_conf_order ext2 st2 e2 sd2 st2' sd2' evs2 hc).2⟩

/-- Witness for C1 amended: instantiates the theorem at a concrete normal
entry with the snapshot timer elapsed and at a concrete committed AddNode
conf change whose `apply_conf_change` returned a conf state. -/
theorem c1_amended_witness :
    allBefore isCompactEv isCreateSnapEv
      [Ev.smApply [1], Ev.reply 7 (Resp.response [1]), Ev.smSnapshot,
        Ev.compact 42, Ev.createSnapshot] = true ∧
    allBefore isCompactEv isCreateSnapEv
      [Ev.smSnapshot, Ev.setConfState, Ev.compact 7, Ev.createSnapshot,
        Ev.reply 7 (Resp.joinSuccess 2 [(2, 33)])] = true ∧
    allBefore isSetConfEv isCompactEv
      [Ev.smSnapshot, Ev.setConfState, Ev.compact 7, Ev.createSnapshot,
        Ev.reply 7 (Resp.joinSuccess 2 [(2, 33)])] = true :=
  c1_amended ⟨fun b => b, [9], 100, false⟩ ⟨1, 1, [], false, 0, 0, 42⟩
    ⟨.normal, [1], [0, 0, 0, 0, 0, 0, 0, 5]⟩ [(5, 7)] _ _ _
    ⟨fun b => b, [], 0, true⟩ ⟨1, 1, [(2, some 22)], false, 0, 0, 7⟩
    ⟨.confChange, encCC ⟨2, .addNode, [0, 0, 0, 0, 0, 0, 0, 33]⟩,
      [0, 0, 0, 0, 0, 0, 0, 5]⟩ [(5, 7)] _ _ _ rfl rfl

theorem regroup_nine {α : Type} (l1 l2 l3 l4 l5 l6 l7 l8 l9 : List α) :
    l1 ++ l2 ++ l3 ++ l4 ++ l5 ++ l6 ++ l7 ++ l8 ++ l9 =
      (l1 ++ l2) ++ (l3 ++ (l4 ++ (l5 ++ (l6 ++ (l7 ++ (l8 ++ l9)))))) := by
  simp [List.append_assoc]

/-- Claim C3: within every readiness cycle that returns normally, the
`storage.append` of the ready batch's new entries occurs strictly before
any dispatch of the batch's persisted messages, and every state-machine
`restore` occurs strictly before the storage `apply_snapshot`; moreover a
non-empty snapshot in the batch produces both the `restore` call on its
data and the `apply_snapshot` call. -/
theorem c3_readiness_ordering (ext : Ext) (st : RaftNodeState) (rdy : Ready)
    (senders : Senders) (st' : RaftNodeState) (senders' : Senders)
    (evs : List Ev)
    (h : on_ready ext st (some rdy) senders = .ok (st', senders', evs)) :
    allBefore isAppendEv isPersistedSendEv evs = true ∧
    allBefore isRestoreEv isApplySnapEv evs = true ∧
    (rdy.snapshot = none ∨
      (Ev.restore (rdy.snapshot.getD []) ∈ evs ∧ Ev.applySnapshotStore ∈ evs)) := by
  rcases hce1 : handle_committed_entries ext st rdy.committedEntries senders
    with eE | res1
  · simp only [on_ready, hce1] at h
    exact absurd h (by simp)
  rcases res1 with ⟨st1, sd1, evs1⟩
  rcases hce2 : handle_committed_entries ext st1 rdy.light.committedEntries sd1
    with eE | res2
  · simp only [on_ready, hce1, hce2] at h
    exact absurd h (by simp)
  rcases res2 with ⟨st2, sd2, evs2⟩
  simp only [on_ready, hce1, hce2, Except.ok.injEq, Prod.mk.injEq] at h
  obtain ⟨h1, h2, h3⟩ := h
  subst h3
  refine ⟨?_, ?_, ?_⟩
  · refine allBefore_nine _ _ _ _ _ _ _ _ _ _ _ ?_ ?_
    · intro x hx
      simp only [List.mem_append] at hx
      rcases hx with ((((hx | hx) | hx) | hx) | hx)
      · rcases mem_spawnSend_map hx with ⟨a, b, rfl⟩
        rfl
      · rcases hsnap : rdy.snapshot with _ | d <;> simp only [hsnap] at hx
        · exact absurd hx (by simp)
        · rcases List.mem_cons.1 hx with rfl | hx2
          · rfl
          · rcases List.mem_cons.1 hx2 with rfl | hx3
            · rfl
            · exact absurd hx3 (by simp)
      · exact (commit_ev_classes x (hce_evs_shape ext rdy.committedEntries st
          senders st1 sd1 evs1 hce1 x hx)).2.1
      · rcases List.mem_cons.1 hx with rfl | hx2
        · rfl
        · exact absurd hx2 (by simp)
      · split at hx
        · rcases List.mem_cons.1 hx with rfl | hx2
          · rfl
          · exact absurd hx2 (by simp)
        · exact absurd hx (by simp)
    · intro x hx
      simp only [List.mem_append] at hx
      rcases hx with ((hx | hx) | hx) | hx
      · split at hx
        · exact absurd hx (by simp)
        · rcases mem_spawnPersisted_map hx with ⟨a, b, rfl⟩
          rfl
      · rcases hci : rdy.light.commitIndex with _ | c <;>
          simp only [hci] at hx
        · exact absurd hx (by simp)
        · split at hx
          · exact absurd hx (by simp)
          · rcases List.mem_cons.1 hx with rfl | hx2
            · rfl
            · exact absurd hx2 (by simp)
      · rcases mem_spawnSend_map hx with ⟨a, b, rfl⟩
        rfl
      · exact (commit_ev_classes x (hce_evs_shape ext rdy.light.committedEntries
          st1 sd1 st2 sd2 evs2 hce2 x hx)).1
  · rw [regroup_nine]
    refine allBefore_head2 _ _ _ _ _ ?_ ?_ ?_
    · intro x hx
      rcases mem_spawnSend_map hx with ⟨a, b, rfl⟩
      rfl
    · rcases hsnap : rdy.snapshot with _ | d <;> simp only [hsnap]
      · rfl
      · rfl
    · intro x hx
      simp only [List.mem_append] at hx
      rcases hx with hx | hx | hx | hx | hx | hx | hx
      · exact (commit_ev_classes x (hce_evs_shape ext rdy.committedEntries st
          senders st1 sd1 evs1 hce1 x hx)).2.2.1
      · rcases List.mem_cons.1 hx with rfl | hx2
        · rfl
        · exact absurd hx2 (by simp)
      · split at hx
        · rcases List.mem_cons.1 hx with rfl | hx2
          · rfl
          · exact absurd hx2 (by simp)
        · exact absurd hx (by simp)
      · split at hx
        · exact absurd hx (by simp)
        · rcases mem_spawnPersisted_map hx with ⟨a, b, rfl⟩
          rfl
      · rcases hci : rdy.light.commitIndex with _ | c <;>
          simp only [hci] at hx
        · exact absurd hx (by simp)
        · split at hx
          · exact absurd hx (by simp)
          · rcases List.mem_cons.1 hx with rfl | hx2
            · rfl
            · exact absurd hx2 (by simp)
      · rcases mem_spawnSend_map hx with ⟨a, b, rfl⟩
        rfl
      · exact (commit_ev_classes x (hce_evs_shape ext rdy.light.committedEntries
          st1 sd1 st2 sd2 evs2 hce2 x hx)).2.2.1
  · rcases hsnap : rdy.snapshot with _ | d
    · exact Or.inl rfl
    · refine Or.inr ⟨?_, ?_⟩ <;> simp [hsnap]

/-- Witness for C3: instantiates the theorem at a concrete readiness batch
carrying a snapshot, one entry to append, a hard-state change and one
persisted message, at a node with one populated peer. -/
theorem c3_readiness_ordering_witness :
    allBefore isAppendEv isPersistedSendEv
      [Ev.spawnSend 1 11, Ev.restore [7], Ev.applySnapshotStore,
        Ev.appendEntries [⟨.normal, [1], [0, 0, 0, 0, 0, 0, 0, 9]⟩],
        Ev.setHardState, Ev.spawnPersisted 1 11, Ev.setCommit 3,
        Ev.spawnSend 1 11] = true ∧
    allBefore isRestoreEv isApplySnapEv
      [Ev.spawnSend 1 11, Ev.restore [7], Ev.applySnapshotStore,
        Ev.appendEntries [⟨.normal, [1], [0, 0, 0, 0, 0, 0, 0, 9]⟩],
        Ev.setHardState, Ev.spawnPersisted 1 11, Ev.setCommit 3,
        Ev.spawnSend 1 11] = true ∧
    ((some [7] : Option (List Nat)) = none ∨
      (Ev.restore [7] ∈
        [Ev.spawnSend 1 11, Ev.restore [7], Ev.applySnapshotStore,
          Ev.appendEntries [⟨.normal, [1], [0, 0, 0, 0, 0, 0, 0, 9]⟩],
          Ev.setHardState, Ev.spawnPersisted 1 11, Ev.setCommit 3,
          Ev.spawnSend 1 11] ∧
        Ev.applySnapshotStore ∈
        [Ev.spawnSend 1 11, Ev.restore [7], Ev.applySnapshotStore,
          Ev.appendEntries [⟨.normal, [1], [0, 0, 0, 0, 0, 0, 0, 9]⟩],
          Ev.setHardState, Ev.spawnPersisted 1 11, Ev.setCommit 3,
          Ev.spawnSend 1 11])) :=
  c3_readiness_ordering ⟨fun b => b, [], 0, false⟩
    ⟨1, 1, [(1, some 11)], false, 0, 0, 0⟩
    ⟨[1], some [7], [], [⟨.normal, [1], [0, 0, 0, 0, 0, 0, 0, 9]⟩], true, [1],
      ⟨some 3, [1], []⟩⟩ [] _ _ _ rfl

/-- Claim C4, amended: at a non-leader node, a `Propose`, `RequestId` or
`ConfigChange` request is answered on its reply channel with
`WrongLeader{leader_id, addr}` whenever the known leader id maps to a
populated peer; when the leader id is absent from the registry (in
particular when no leader is known, id 0), the lookup `peers[leader_id]`
raises `KeyError` and no reply (and no `NoLeader` reply, which the code
cannot construct) is sent. -/
theorem c4_amended (st : RaftNodeState) (senders : Senders) (a ch : Nat)
    (data : List Nat) (change : ConfChange)
    (hnl : (st.selfId == st.leaderId) = false) :
    (getk st.peers st.leaderId = some (some a) →
      send_wrong_leader st = .ok (.wrongLeader st.leaderId a) ∧
      dispatch st senders (some (.propose data ch)) =
        .ok (st, senders, [Ev.reply ch (Resp.wrongLeader st.leaderId a)]) ∧
      dispatch st senders (some (.requestId ch)) =
        .ok (st, senders, [Ev.reply ch (Resp.wrongLeader st.leaderId a)]) ∧
      dispatch st senders (some (.configChange change ch)) =
        .ok (st, senders, [Ev.reply ch (Resp.wrongLeader st.leaderId a)])) ∧
    (getk st.peers st.leaderId = none →
      send_wrong_leader st = .error .keyError ∧
      dispatch st senders (some (.propose data ch)) = .error .keyError) := by
  constructor
  · intro hpop
    have hw : send_wrong_leader st = .ok (.wrongLeader st.leaderId a) := by
      simp [send_wrong_leader, hpop]
    refine ⟨hw, ?_, ?_, ?_⟩ <;> simp [dispatch, hnl, hw]
  · intro habs
    have hw : send_wrong_leader st = .error .keyError := by
      simp [send_wrong_leader, habs]
    exact ⟨hw, by simp [dispatch, hnl, hw]⟩

/-- Witness for C4 amended: a follower (id 2) that knows leader 1 at
address 11 replies `WrongLeader{1, 11}` to a proposal. -/
theorem c4_amended_witness :
    send_wrong_leader ⟨2, 1, [(1, some 11)], false, 0, 0, 0⟩ =
      .ok (.wrongLeader 1 11) ∧
    dispatch ⟨2, 1, [(1, some 11)], false, 0, 0, 0⟩ [] (some (.propose [1] 9)) =
      .ok (⟨2, 1, [(1, some 11)], false, 0, 0, 0⟩, [],
        [Ev.reply 9 (Resp.wrongLeader 1 11)]) :=
  ⟨((c4_amended ⟨2, 1, [(1, some 11)], false, 0, 0, 0⟩ [] 11 9 [1]
      ⟨0, .addNode, []⟩ rfl).1 rfl).1,
   ((c4_amended ⟨2, 1, [(1, some 11)], false, 0, 0, 0⟩ [] 11 9 [1]
      ⟨0, .addNode, []⟩ rfl).1 rfl).2.1⟩

/-- Claim C6, amended: `reserve_next_peer_id` returns
`max((max(existing_peer_ids) if any else 1) + 1, own_id)` — which differs
from the claimed `max(existing_peer_ids ∪ {own_id}) + 1` when
`own_id ≥ max(existing) + 2` — inserts a reserved (`None`) entry under the
returned id, the returned id is fresh whenever the node is absent from its
own registry, and on a 1-node cluster (empty registry, own id 1) a
`RequestId` request is answered with `IdReserved 2`. -/
theorem c6_amended (st : RaftNodeState) :
    (reserve_next_peer_id st).1 =
      max ((if st.peers.isEmpty then 1 else maxKey st.peers) + 1) st.selfId ∧
    getk (reserve_next_peer_id st).2.peers (reserve_next_peer_id st).1 =
      some none ∧
    (getk st.peers st.selfId = none →
      getk st.peers (reserve_next_peer_id st).1 = none) ∧
    dispatch ⟨1, 1, [], false, 0, 0, 0⟩ [] (some (.requestId 9)) =
      .ok (⟨1, 1, [(2, none)], false, 0, 0, 0⟩, [],
        [Ev.reply 9 (Resp.idReserved 2)]) := by
  refine ⟨rfl, ?_, ?_, rfl⟩
  · exact getk_setk_self _ _ _
  · intro hself
    have hr : (reserve_next_peer_id st).1 =
        max ((if st.peers.isEmpty then 1 else maxKey st.peers) + 1) st.selfId :=
      rfl
    rw [hr]
    rcases le_or_lt st.selfId
        ((if st.peers.isEmpty then 1 else maxKey st.peers) + 1) with hle | hlt
    · rw [max_eq_left hle]
      by_cases hemp : st.peers.isEmpty
      · have hnil : st.peers = [] := by
          cases hsp : st.peers with
          | nil => rfl
          | cons p rest => rw [hsp] at hemp; simp [List.isEmpty] at hemp
        rw [if_pos hemp, hnil]
        rfl
      · rw [if_neg hemp]
        exact getk_of_maxKey_lt st.peers _ (by omega)
    · rw [max_eq_right (le_of_lt hlt)]
      exact hself

/-- Witness for C6 amended: on the empty registry with own id 1 the
reserved id is 2, recorded as a reserved entry, and 2 is fresh. -/
theorem c6_amended_witness :
    (reserve_next_peer_id ⟨1, 1, [], false, 0, 0, 0⟩).1 = 2 ∧
    getk (reserve_next_peer_id ⟨1, 1, [], false, 0, 0, 0⟩).2.peers 2 =
      some none ∧
    getk ([] : List (Nat × Option Nat)) 2 = none :=
  ⟨(c6_amended ⟨1, 1, [], false, 0, 0, 0⟩).1,
   (c6_amended ⟨1, 1, [], false, 0, 0, 0⟩).2.1,
   (c6_amended ⟨1, 1, [], false, 0, 0, 0⟩).2.2.1 rfl⟩

/-- Claim C7, amended: for a committed normal entry whose sequence is
present in `client_senders`, exactly one response is delivered on the
associated channel and the table entry is removed; if the sequence is
absent, the commit is handled with no response sent and the table
untouched.  For a committed conf change the same holds whenever the
handler completes without an exception: exactly-once delivery and removal
when the sequence is present, no response when it is absent (the exception
paths, which deliver nothing, are exhibited by the counterexample). -/
theorem c7_exactly_once (ext : Ext) (st : RaftNodeState) (e : LogEntry)
    (senders : Senders) (seq ch : Nat) (st' : RaftNodeState) (sd' : Senders)
    (evs : List Ev)
    (hctx : decode_u64 e.context = .ok seq) :
    (handle_normal ext st e senders = .ok (st', sd', evs) →
      (getk senders seq = some ch →
        evs.filter isReplyEv =
          [Ev.reply ch (Resp.response (ext.applyFn e.data))] ∧
        getk sd' seq = none) ∧
      (getk senders seq = none →
        evs.filter isReplyEv = [] ∧ sd' = senders)) ∧
    (handle_config_change ext st e senders = .ok (st', sd', evs) →
      (getk senders seq = some ch →
        (evs.filter isReplyEv).length = 1 ∧
        (evs.filter isReplyEv).all (fun x => replyChanOf x == ch) = true ∧
        getk sd' seq = none) ∧
      (getk senders seq = none → evs.filter isReplyEv = [])) := by
  constructor
  · intro h
    rw [handle_normal.eq_def] at h
    simp only [hctx] at h
    constructor
    · intro hg
      have hp : popk senders seq = (some ch, erasek senders seq) := by
        simp [popk, hg]
      by_cases ht : ext.now > st.lastSnapTime + 15 <;>
        simp [hp, ht] at h <;>
        obtain ⟨h1, h2, h3⟩ := h <;>
        subst h3 <;> subst h2 <;>
        exact ⟨by simp [List.filter, isReplyEv], getk_erasek_self _ _⟩
    · intro hg
      have hp : popk senders seq = (none, senders) := by
        simp [popk, hg]
      by_cases ht : ext.now > st.lastSnapTime + 15 <;>
        simp [hp, ht] at h <;>
        obtain ⟨h1, h2, h3⟩ := h <;>
        subst h3 <;> subst h2 <;>
        exact ⟨by simp [List.filter, isReplyEv], rfl⟩
  · intro h
    rw [handle_config_change.eq_def] at h
    simp only [hctx] at h
    rcases hdc : decCC e.data with _ | change
    · simp [hdc] at h
    simp only [hdc] at h
    rcases change with ⟨nid, cty, cctx⟩
    constructor
    · intro hg
      have hp : popk senders seq = (some ch, erasek senders seq) := by
        simp [popk, hg]
      cases cty with
      | addNode =>
        rcases ha : decode_u64 cctx with eE | addr
        · simp [ha] at h
        rcases hpa : peer_addrs (setk st.peers nid (some addr)) with eE | pa
        · simp [ha, hp, hpa] at h
        by_cases hcs : ext.csNew <;>
          simp [ha, hp, hpa, hcs] at h <;>
          obtain ⟨h1, h2, h3⟩ := h <;>
          subst h3 <;> subst h2 <;>
          exact ⟨by simp [List.filter, isReplyEv],
            by simp [List.filter, isReplyEv, replyChanOf],
            getk_erasek_self _ _⟩
      | removeNode =>
        by_cases hself : nid = st.selfId
        · by_cases hcs : ext.csNew <;>
            simp [hself, hp, hcs] at h <;>
            obtain ⟨h1, h2, h3⟩ := h <;>
            subst h3 <;> subst h2 <;>
            exact ⟨by simp [List.filter, isReplyEv],
              by simp [List.filter, isReplyEv, replyChanOf],
              getk_erasek_self _ _⟩
        · rcases hgp : getk st.peers nid with _ | cl
          · simp [hself, hgp] at h
          by_cases hcs : ext.csNew <;>
            simp [hself, hgp, hp, hcs] at h <;>
            obtain ⟨h1, h2, h3⟩ := h <;>
            subst h3 <;> subst h2 <;>
            exact ⟨by simp [List.filter, isReplyEv],
              by simp [List.filter, isReplyEv, replyChanOf],
              getk_erasek_self _ _⟩
      | addLearnerNode => simp at h
    · intro hg
      have hp : popk senders seq = (none, senders) := by
        simp [popk, hg]
      cases cty with
      | addNode =>
        rcases ha : decode_u64 cctx with eE | addr
        · simp [ha] at h
        by_cases hcs : ext.csNew <;>
          simp [ha, hp, hcs] at h <;>
          obtain ⟨h1, h2, h3⟩ := h <;>
          subst h3 <;>
          simp [List.filter, isReplyEv]
      | removeNode =>
        by_cases hself : nid = st.selfId
        · by_cases hcs : ext.csNew <;>
            simp [hself, hp, hcs] at h <;>
            obtain ⟨h1, h2, h3⟩ := h <;>
            subst h3 <;>
            simp [List.filter, isReplyEv]
        · rcases hgp : getk st.peers nid with _ | cl
          · simp [hself, hgp] at h
          by_cases hcs : ext.csNew <;>
            simp [hself, hgp, hp, hcs] at h <;>
            obtain ⟨h1, h2, h3⟩ := h <;>
            subst h3 <;>
            simp [List.filter, isReplyEv]
      | addLearnerNode => simp at h

/-- Claim C7, counterexample: the claim quantifies over every committed
proposal or conf change, but on the code a committed `AddNode` whose
sequence 5 is present in `client_senders` raises `AttributeError` (another
id is reserved, so `peer_addrs` fails while building `JoinSuccess`) and
delivers zero responses rather than exactly one; and a committed
`RemoveNode` of a peer absent from the registry, with its sequence absent
from the table, raises `KeyError` rather than being handled without
error. -/
theorem c7_counterexample :
    handle_config_change ⟨fun b => b, [], 0, true⟩
      ⟨1, 1, [(4, none)], false, 0, 0, 7⟩
      ⟨.confChange, encCC ⟨2, .addNode, [0, 0, 0, 0, 0, 0, 0, 33]⟩,
        [0, 0, 0, 0, 0, 0, 0, 5]⟩ [(5, 7)] = .error .attributeError ∧
    getk [(5, 7)] 5 = some 7 ∧
    exceptIsOk (handle_config_change ⟨fun b => b, [], 0, true⟩
      ⟨1, 1, [(4, none)], false, 0, 0, 7⟩
      ⟨.confChange, encCC ⟨2, .addNode, [0, 0, 0, 0, 0, 0, 0, 33]⟩,
        [0, 0, 0, 0, 0, 0, 0, 5]⟩ [(5, 7)]) = false ∧
    handle_config_change ⟨fun b => b, [], 0, false⟩ ⟨1, 1, [], false, 0, 0, 0⟩
      ⟨.confChange, encCC ⟨3, .removeNode, []⟩, [0, 0, 0, 0, 0, 0, 0, 9]⟩ [] =
      .error .keyError ∧
    getk ([] : Senders) 9 = none :=
  ⟨rfl, rfl, rfl, rfl, rfl⟩

/-- Witness for C7 amended: a committed normal entry with sequence 5 while
channel 7 waits under 5 yields exactly the one reply and empties the
table. -/
theorem c7_exactly_once_witness :
    [Ev.smApply [2], Ev.reply 7 (Resp.response [2])].filter isReplyEv =
      [Ev.reply 7 (Resp.response [2])] ∧
    getk ([] : Senders) 5 = none :=
  ((c7_exactly_once ⟨fun b => b, [], 0, false⟩ ⟨1, 1, [], false, 0, 0, 0⟩
      ⟨.normal, [2], [0, 0, 0, 0, 0, 0, 0, 5]⟩ [(5, 7)] 5 7
      ⟨1, 1, [], false, 0, 0, 0⟩ []
      [Ev.smApply [2], Ev.reply 7 (Resp.response [2])] rfl).1 rfl).1 rfl

/-- Claim C8: a committed `RemoveNode` conf change targeting the node's own
id sets `should_quit` without touching the peer registry, and a loop
iteration that starts with `should_quit` set returns immediately: the
inbound queue is left untouched and nothing is dispatched or proposed. -/
theorem c8_remove_self_quits (ext : Ext) (st : RaftNodeState)
    (senders : Senders) (cctx : List Nat) (s : Nat) (st' : RaftNodeState)
    (sd' : Senders) (evs : List Ev) (ext2 : Ext) (st2 : RaftNodeState)
    (sd2 : Senders) (queue : List InMsg) (rdy : Option Ready)
    (h : handle_config_change ext st
      ⟨.confChange, encCC ⟨st.selfId, .removeNode, cctx⟩, encode_u64 s⟩
      senders = .ok (st', sd', evs))
    (hq : st2.shouldQuit = true) :
    st'.shouldQuit = true ∧ st'.peers = st.peers ∧
    runIter ext2 st2 sd2 queue rdy = .ok (.quit, queue) := by
  have hd : decode_u64 (encode_u64 s) =
      .ok ((encode_u64 s).foldl (fun acc x => acc * 256 + x) 0) := by
    simp [decode_u64, encode_u64_length]
  rw [handle_config_change.eq_def] at h
  simp only [hd, decCC_encCC] at h
  rcases hp : popk senders ((encode_u64 s).foldl (fun acc x => acc * 256 + x) 0)
    with ⟨popped, senders1⟩
  have hrun : runIter ext2 st2 sd2 queue rdy = .ok (.quit, queue) := by
    simp [runIter, hq]
  rcases popped with _ | ch <;>
    by_cases hcs : ext.csNew <;>
    simp [hp, hcs] at h <;>
    obtain ⟨h1, h2, h3⟩ := h <;>
    subst h1 <;>
    exact ⟨rfl, rfl, hrun⟩

/-- Witness for C8: a committed self-removal at node 1 sets `should_quit`
and keeps the registry; the next iteration quits with the queue intact. -/
theorem c8_remove_self_quits_witness :
    (⟨1, 1, [(2, some 22)], true, 0, 0, 7⟩ : RaftNodeState).shouldQuit = true ∧
    (⟨1, 1, [(2, some 22)], true, 0, 0, 7⟩ : RaftNodeState).peers =
      [(2, some 22)] ∧
    runIter ⟨fun b => b, [], 0, true⟩ ⟨1, 1, [], true, 0, 0, 0⟩ []
      [InMsg.propose [1] 9] none = .ok (.quit, [InMsg.propose [1] 9]) :=
  c8_remove_self_quits ⟨fun b => b, [], 0, true⟩
    ⟨1, 1, [(2, some 22)], false, 0, 0, 7⟩ [(5, 7)] [] 5 _ _ _
    ⟨fun b => b, [], 0, true⟩ ⟨1, 1, [], true, 0, 0, 0⟩ []
    [InMsg.propose [1] 9] none rfl rfl

/-- Claim C9: `peer_addrs` presupposes a fully populated registry — any
reserved entry (id present, client `None`) makes it raise
`AttributeError` — and consequently a committed `AddNode` whose sequence
still has a waiting sender fails with `AttributeError` instead of replying
`JoinSuccess` whenever some other id is merely reserved. -/
theorem c9_reserved_peer_blocks_join (peers2 : List (Nat × Option Nat))
    (rid2 : Nat) (ext : Ext) (st : RaftNodeState) (e : LogEntry)
    (senders : Senders) (seq ch addr rid nid : Nat) (cctx : List Nat)
    (hpa2 : getk peers2 rid2 = some none)
    (hctx : decode_u64 e.context = .ok seq)
    (hdata : decCC e.data = some ⟨nid, .addNode, cctx⟩)
    (haddr : decode_u64 cctx = .ok addr)
    (hrid : getk st.peers rid = some none)
    (hne : rid ≠ nid)
    (hch : getk senders seq = some ch) :
    peer_addrs peers2 = .error .attributeError ∧
    handle_config_change ext st e senders = .error .attributeError := by
  refine ⟨peer_addrs_error_of_reserved peers2 rid2 hpa2, ?_⟩
  have hst1 : getk (setk st.peers nid (some addr)) rid = some none := by
    rw [getk_setk_ne st.peers nid rid (some addr) hne]
    exact hrid
  have hpe : peer_addrs (setk st.peers nid (some addr)) =
      .error .attributeError :=
    peer_addrs_error_of_reserved _ rid hst1
  have hp : popk senders seq = (some ch, erasek senders seq) := by
    simp [popk, hch]
  rw [handle_config_change.eq_def]
  simp [hctx, hdata, haddr, hp, hpe]

/-- Witness for C9: with id 4 reserved, a committed `AddNode(2)` with a
waiting sender raises `AttributeError` rather than replying. -/
theorem c9_reserved_peer_blocks_join_witness :
    peer_addrs [(4, none)] = .error .attributeError ∧
    handle_config_change ⟨fun b => b, [], 0, true⟩
      ⟨1, 1, [(4, none)], false, 0, 0, 7⟩
      ⟨.confChange, encCC ⟨2, .addNode, [0, 0, 0, 0, 0, 0, 0, 33]⟩,
        [0, 0, 0, 0, 0, 0, 0, 5]⟩ [(5, 7)] = .error .attributeError :=
  c9_reserved_peer_blocks_join [(4, none)] 4 ⟨fun b => b, [], 0, true⟩
    ⟨1, 1, [(4, none)], false, 0, 0, 7⟩
    ⟨.confChange, encCC ⟨2, .addNode, [0, 0, 0, 0, 0, 0, 0, 33]⟩,
      [0, 0, 0, 0, 0, 0, 0, 5]⟩ [(5, 7)] 5 7 33 4 2
    [0, 0, 0, 0, 0, 0, 0, 33] rfl rfl rfl rfl rfl (by decide) rfl

/-- Claim C10: `send_messages` spawns a sender task exactly for the
messages whose destination id maps to a populated registry entry: a pair
`(dest, client)` is spawned iff `dest` was a message destination and
`peers.get(dest)` is a populated client; destinations that are absent or
merely reserved are silently skipped, and the dispatch itself never
fails. -/
theorem c10_send_messages_skips (peers : List (Nat × Option Nat))
    (msgs : List Nat) (t c : Nat) :
    ((t, c) ∈ send_messages peers msgs ↔
      (t ∈ msgs ∧ getk peers t = some (some c))) ∧
    (getk peers t = none → (t, c) ∉ send_messages peers msgs) ∧
    (getk peers t = some none → (t, c) ∉ send_messages peers msgs) := by
  have hiff : (t, c) ∈ send_messages peers msgs ↔
      (t ∈ msgs ∧ getk peers t = some (some c)) := by
    induction msgs with
    | nil => simp [send_messages]
    | cons m rest ih =>
      rcases hg : getk peers m with _ | oc
      · simp only [send_messages, hg]
        rw [ih]
        constructor
        · rintro ⟨ht, hgt⟩
          exact ⟨List.mem_cons_of_mem m ht, hgt⟩
        · rintro ⟨ht, hgt⟩
          rcases List.mem_cons.1 ht with rfl | ht2
          · rw [hg] at hgt
            exact absurd hgt (by simp)
          · exact ⟨ht2, hgt⟩
      · rcases oc with _ | cl
        · simp only [send_messages, hg]
          rw [ih]
          constructor
          · rintro ⟨ht, hgt⟩
            exact ⟨List.mem_cons_of_mem m ht, hgt⟩
          · rintro ⟨ht, hgt⟩
            rcases List.mem_cons.1 ht with rfl | ht2
            · rw [hg] at hgt
              exact absurd hgt (by simp)
            · exact ⟨ht2, hgt⟩
        · simp only [send_messages, hg]
          constructor
          · intro hmem
            rcases List.mem_cons.1 hmem with heq | hmem2
            · obtain ⟨rfl, rfl⟩ := Prod.mk.injEq .. ▸ heq
              exact ⟨List.mem_cons_self t rest, hg⟩
            · rcases ih.1 hmem2 with ⟨ht, hgt⟩
              exact ⟨List.mem_cons_of_mem m ht, hgt⟩
          · rintro ⟨ht, hgt⟩
            rcases List.mem_cons.1 ht with rfl | ht2
            · rw [hg] at hgt
              have : cl = c := by
                injection hgt with hgt'
                injection hgt' with hgt2
              subst this
              exact List.mem_cons_self (t, cl) _
            · exact List.mem_cons_of_mem _ (ih.2 ⟨ht2, hgt⟩)
  refine ⟨hiff, ?_, ?_⟩
  · intro hg hmem
    rcases hiff.1 hmem with ⟨-, hgt⟩
    rw [hg] at hgt
    exact absurd hgt (by simp)
  · intro hg hmem
    rcases hiff.1 hmem with ⟨-, hgt⟩
    rw [hg] at hgt
    exact absurd hgt (by simp)

/-- Witness for C10: with peer 1 populated at address 11 and peer 2 merely
reserved, a batch `[1, 2, 3]` spawns the one sender task for peer 1 and no
task for destinations 2 (reserved) or any unregistered id. -/
theorem c10_send_messages_skips_witness :
    (1, 11) ∈ send_messages [(1, some 11), (2, none)] [1, 2, 3] ∧
    (2, 99) ∉ send_messages [(1, some 11), (2, none)] [1, 2, 3] ∧
    (3, 99) ∉ send_messages [(1, some 11), (2, none)] [1, 2, 3] :=
  ⟨(c10_send_messages_skips [(1, some 11), (2, none)] [1, 2, 3] 1 11).1.2
      ⟨by decide, rfl⟩,
   (c10_send_messages_skips [(1, some 11), (2, none)] [1, 2, 3] 2 99).2.2 rfl,
   (c10_send_messages_skips [(1, some 11), (2, none)] [1, 2, 3] 3 99).2.1 rfl⟩

end Raftify
